import Mathlib

/-!
Shallow embedding of the BeeBot MDP solver (`src/a2/solution.py`) together with
the action constants of `src/a2/constants.py`.

Modelling conventions:
* Python floats are modelled as exact rationals (`ℚ`).
* The external `Environment` adapter (initial state, terminal test, deterministic
  dynamics, per-action stochastic parameters) is a structure parameter; the solver
  code is translated line by line against it.
* Python dictionaries keyed by states are modelled as a key list (insertion order)
  together with a total lookup function; `dict.get(k, d)` becomes a membership test
  on the key list.
-/

namespace BeeBot

/-! ### Constants (`constants.py`) -/

def FORWARD : Nat := 0
def REVERSE : Nat := 1
def SPIN_LEFT : Nat := 2
def SPIN_RIGHT : Nat := 3

def BEE_ACTIONS : List Nat := [FORWARD, REVERSE, SPIN_LEFT, SPIN_RIGHT]

/-! ### The environment adapter (external collaborator)

`apply_dynamics` returns the `(reward, next_state)` pair of the Python adapter.
-/

structure Environment (S : Type) where
  get_init_state : S
  is_solved : S → Bool
  apply_dynamics : S → Nat → ℚ × S
  drift_cw_probs : Nat → ℚ
  drift_ccw_probs : Nat → ℚ
  double_move_probs : Nat → ℚ
  epsilon : ℚ
  gamma : ℚ

variable {S : Type} [DecidableEq S]

/-! ### Transition model (`Solver.get_transition_outcomes`) -/

/-- The inner `for move in movements` loop of `get_transition_outcomes`:
apply the deterministic dynamics step by step, accumulating reward, and
break as soon as a step's result state equals the state `start` the
sequence started from (the blocking step's reward is still accumulated). -/
def applyMovements (env : Environment S) (start : S) :
    List Nat → S → ℚ → S × ℚ
  | [], cur, acc => (cur, acc)
  | m :: rest, cur, acc =>
    let rn := env.apply_dynamics cur m
    if rn.2 = start then (rn.2, acc + rn.1)
    else applyMovements env start rest rn.2 (acc + rn.1)

/-- `Solver.get_transition_outcomes`: the list of `(probability, next_state, reward)`
triples.  A solved state yields the single self-loop outcome; otherwise the three
drift rows (no drift tagged `0`, clockwise `SPIN_RIGHT`, counter-clockwise
`SPIN_LEFT`) are each combined with `double_move ∈ {false, true}`.  The Python
`[drift] if drift else []` truthiness test on the drift tag becomes `pd.2 ≠ 0`. -/
def get_transition_outcomes (env : Environment S) (state : S) (action : Nat) :
    List (ℚ × S × ℚ) :=
  if env.is_solved state then [(1, state, 0)]
  else
    List.flatMap
      [(1 - env.drift_cw_probs action - env.drift_ccw_probs action, (0 : Nat)),
       (env.drift_cw_probs action, SPIN_RIGHT),
       (env.drift_ccw_probs action, SPIN_LEFT)]
      (fun pd =>
        [false, true].map (fun dbl =>
          let movements :=
            (if pd.2 ≠ 0 then [pd.2] else []) ++ [action] ++
              (if dbl then [action] else [])
          let nr := applyMovements env state movements state 0
          let mp := pd.1 *
            (if dbl then env.double_move_probs action
             else 1 - env.double_move_probs action)
          (mp, nr.1, nr.2)))

/-- Sum of the probabilities of the outcomes of one `(state, action)` pair. -/
def outcomeProbSum (env : Environment S) (state : S) (action : Nat) : ℚ :=
  ((get_transition_outcomes env state action).map (fun o => o.1)).sum

/-! ### Spec-side description of the movement sequences

These two definitions follow the specification's words (not the code) and are
used only to state the refinement claim about the movement sequences: the spec
names the sequence of each drift/double combination explicitly, with the drift
given as an optional action. -/

/-- The movement sequence the spec assigns to a drift/double combination:
no-drift/single = `[action]`; drift/single = `[drift_action, action]`;
no-drift/double = `[action, action]`; drift/double = `[drift_action, action, action]`. -/
def specMovements (action : Nat) : Option Nat → Bool → List Nat
  | none, false => [action]
  | none, true => [action, action]
  | some d, false => [d, action]
  | some d, true => [d, action, action]

/-- Spec-side sequential application of the adapter's deterministic step along a
movement sequence: per-step rewards are summed, and the sequence stops early —
keeping the reward accumulated so far, including the blocking step's reward — as
soon as some step's result state equals the state the sequence started from. -/
def specApplySeq (env : Environment S) (start : S) :
    List Nat → S → ℚ → S × ℚ
  | [], cur, acc => (cur, acc)
  | m :: rest, cur, acc =>
    let rn := env.apply_dynamics cur m
    if rn.2 = start then (rn.2, acc + rn.1)
    else specApplySeq env start rest rn.2 (acc + rn.1)

/-- Spec-side outcome list: the cross product
{no-drift, cw-drift, ccw-drift} × {single, double}, each combination contributing
one outcome whose probability is the product of the branch probabilities and whose
`(next_state, reward)` comes from `specApplySeq` on `specMovements`. -/
def specOutcomes (env : Environment S) (state : S) (action : Nat) :
    List (ℚ × S × ℚ) :=
  List.flatMap
    [(1 - env.drift_cw_probs action - env.drift_ccw_probs action, (none : Option Nat)),
     (env.drift_cw_probs action, some SPIN_RIGHT),
     (env.drift_ccw_probs action, some SPIN_LEFT)]
    (fun pd =>
      [false, true].map (fun dbl =>
        let nr := specApplySeq env state (specMovements action pd.2 dbl) state 0
        let mp := pd.1 *
          (if dbl then env.double_move_probs action
           else 1 - env.double_move_probs action)
        (mp, nr.1, nr.2)))

/-! ### Value-iteration data (`state_values`, `policy` dictionaries)

A Python dictionary keyed by states is modelled as its key list (in insertion
order) together with a total lookup function; `dict.get(k, d)` tests membership
of the key list. -/

structure VISt (S : Type) where
  keys : List S
  values : S → ℚ
  policy : S → Nat

/-- `self.state_values.get(next_state, 0)`. -/
def valueGet (keys : List S) (V : S → ℚ) (s : S) : ℚ :=
  if s ∈ keys then V s else 0

/-- `Solver._compute_q_value`: expected one-step return of `(state, action)`
under the current value table. -/
def computeQValue (env : Environment S) (keys : List S) (V : S → ℚ)
    (s : S) (a : Nat) : ℚ :=
  ((get_transition_outcomes env s a).map
    (fun o => o.1 * (o.2.2 + env.gamma * valueGet keys V o.2.1))).sum

/-- One comparison of the action-selection loop of `Solver.vi_iteration`: the
running best `(value, action)` starts as `(-inf, None)` (modelled as `none`; in
exact arithmetic the first action always beats `-inf`) and is replaced whenever
a later action's Q-value is strictly greater. -/
def bestStep (q : ℚ) (a : Nat) : Option (ℚ × Nat) → Option (ℚ × Nat)
  | none => some (q, a)
  | some bv => if q > bv.1 then some (q, a) else some bv

/-- The full action-selection loop of `Solver.vi_iteration` over `BEE_ACTIONS`. -/
def bestActionValue (env : Environment S) (keys : List S) (V : S → ℚ)
    (s : S) : ℚ × Nat :=
  (BEE_ACTIONS.foldl
    (fun best a => bestStep (computeQValue env keys V s a) a best)
    none).getD (0, 0)

/-- The body of `Solver.vi_iteration`'s `for state in self.state_values` loop:
a solved state's value is pinned to `0`; otherwise the best Q-value and action
are stored.  Updates are made in place on the shared tables. -/
def viStep (env : Environment S) (keys : List S) :
    (S → ℚ) × (S → Nat) → S → (S → ℚ) × (S → Nat) :=
  fun vp s =>
    if env.is_solved s then (Function.update vp.1 s 0, vp.2)
    else
      let ba := bestActionValue env keys vp.1 s
      (Function.update vp.1 s ba.1, Function.update vp.2 s ba.2)

/-- `Solver.vi_iteration`: one in-place sweep over the value table in key order. -/
def vi_iteration (env : Environment S) (st : VISt S) : VISt S :=
  let vp := st.keys.foldl (viStep env st.keys) (st.values, st.policy)
  ⟨st.keys, vp.1, vp.2⟩

/-- Modelled from the claim's contrast case: a snapshot (Jacobi-style) variant
of `vi_iteration` in which every Q-value is computed from the value table as it
was at the start of the sweep (`st.values`), not from the shared, already
updated tables.  The source's `vi_iteration` is the in-place version; this
definition exists only to be compared against it. -/
def viIterationSnapshot (env : Environment S) (st : VISt S) : VISt S :=
  let vp := st.keys.foldl
    (fun vp s =>
      if env.is_solved s then (Function.update vp.1 s 0, vp.2)
      else
        let ba := bestActionValue env st.keys st.values s
        (Function.update vp.1 s ba.1, Function.update vp.2 s ba.2))
    (st.values, st.policy)
  ⟨st.keys, vp.1, vp.2⟩

/-- `Solver._compute_value`: Bellman-optimal value of a state under the current
table (`max` over the fixed action list; Python's `max` of a nonempty sequence). -/
def compute_value (env : Environment S) (keys : List S) (V : S → ℚ) (s : S) : ℚ :=
  if env.is_solved s then 0
  else
    match BEE_ACTIONS.map (computeQValue env keys V s) with
    | [] => 0
    | q :: qs => qs.foldl max q

/-- `Solver.vi_is_converged`. -/
def vi_is_converged (env : Environment S) (st : VISt S) : Bool :=
  st.keys.all
    (fun s => |st.values s - compute_value env st.keys st.values s| < env.epsilon)

/-- `Solver.vi_plan_offline`'s loop: `while not converged and iterations < 1000`.
The fuel argument is the number of iterations still allowed (1000 at the start). -/
def vi_plan_loop (env : Environment S) : Nat → VISt S → VISt S
  | 0, st => st
  | fuel + 1, st =>
    if vi_is_converged env st then st
    else vi_plan_loop env fuel (vi_iteration env st)

/-! ### State-space explorer (`Solver._explore_states_iterative`)

The Python `while` loop carries the LIFO stack (`list.append`/`list.pop`; here
the head of the list is the top of the stack), the `state_values` and `policy`
dictionaries (as association lists in insertion order; every value inserted
during exploration is `0` / `FORWARD`), and the `explored` set (as a list).
The loop itself needs a fuel parameter in Lean; running out of fuel is reported
as a separate exit tag so that it can never be mistaken for a real exit. -/

inductive ExploreExit where
  | frontierEmpty
  | capReached
  | outOfFuel
deriving DecidableEq

structure ExploreRes (S : Type) where
  sv : List (S × ℚ)
  pol : List (S × Nat)
  stack : List S
  explored : List S
  exit : ExploreExit

/-- The two nested `for` loops of the explorer: for every action, for every
transition outcome of the popped state, insert an unknown `next_state` into both
dictionaries (value `0`, policy `FORWARD`) and push it onto the stack. -/
def expandState (env : Environment S) (s : S) :
    List (S × ℚ) × List (S × Nat) × List S →
      List (S × ℚ) × List (S × Nat) × List S :=
  fun acc =>
    BEE_ACTIONS.foldl
      (fun acc a =>
        (get_transition_outcomes env s a).foldl
          (fun acc o =>
            if o.2.1 ∈ acc.1.map Prod.fst then acc
            else (acc.1 ++ [(o.2.1, 0)], acc.2.1 ++ [(o.2.1, FORWARD)],
              o.2.1 :: acc.2.2))
          acc)
      acc

/-- The explorer's `while stack and len(self.state_values) < max_states` loop. -/
def exploreLoop (env : Environment S) (max_states : Nat) :
    Nat → List S → List (S × ℚ) → List (S × Nat) → List S → ExploreRes S
  | 0, stack, sv, pol, explored => ⟨sv, pol, stack, explored, .outOfFuel⟩
  | fuel + 1, stack, sv, pol, explored =>
    match stack with
    | [] => ⟨sv, pol, [], explored, .frontierEmpty⟩
    | s :: rest =>
      if sv.length < max_states then
        if s ∈ explored then exploreLoop env max_states fuel rest sv pol explored
        else
          let acc := expandState env s (sv, pol, rest)
          exploreLoop env max_states fuel acc.2.2 acc.1 acc.2.1 (s :: explored)
      else ⟨sv, pol, s :: rest, explored, .capReached⟩

/-- The condition of the explorer's closing
`if len(self.state_values) >= max_states: print(Warning ...)` — the overflow is
only a console message in the source, so it is modelled as this standalone
predicate on the explorer's result. -/
def exploreWarns (max_states : Nat) (res : ExploreRes S) : Bool :=
  res.sv.length ≥ max_states

/-- `Solver.vi_initialise`: seed the dictionaries with the initial state and
explore up to 10000 states (the fuel is an artifact of the embedding). -/
def vi_initialise (env : Environment S) (fuel : Nat) : ExploreRes S :=
  let s0 := env.get_init_state
  exploreLoop env 10000 fuel [s0] [(s0, 0)] [(s0, FORWARD)] []

/-- The `VISt` produced by `vi_initialise` (dictionary lookups from the
association lists; every explored entry is `0` / `FORWARD`). -/
def vi_initial_state (env : Environment S) (fuel : Nat) : VISt S :=
  let res := vi_initialise env fuel
  ⟨res.sv.map Prod.fst,
   fun s => ((res.sv.lookup s).getD 0),
   fun s => ((res.pol.lookup s).getD FORWARD)⟩

/-- `Solver.vi_plan_offline`: initialise, then iterate until convergence or the
1000-iteration cap. -/
def vi_plan_offline (env : Environment S) (fuel : Nat) : VISt S :=
  vi_plan_loop env 1000 (vi_initial_state env fuel)

/-! ### Policy iteration (`pi_*` methods)

The numpy arrays `value_array` and `policy_array` are modelled as lists of
length `len(state_list)` (`policy_array` stores indices into `BEE_ACTIONS`, as
in the source); `policy_stable` is the flag set by each improvement.  The
matrix row `T[i]` and entry `R[i]` of `_get_transition_matrix` are modelled
directly as functions of `i` (the source memoizes them per action; the cache is
semantically transparent).  `state_to_index.get(next_state, i)` becomes
`resolveIdx`.  The `is_solved_array` built in `pi_initialise` is never read
anywhere in the source and is omitted. -/

variable [Inhabited S]

/-- `self.state_list[i]`. -/
def stateAt (sl : List S) (i : Nat) : S := sl.getD i default

/-- `self.state_to_index.get(next_state, i)`: the index of `next_state` in the
state list, or `i` itself when `next_state` is outside the explored universe. -/
def resolveIdx (sl : List S) (ns : S) (i : Nat) : Nat :=
  if ns ∈ sl then sl.indexOf ns else i

/-- Entry `T[i, j]` of `_get_transition_matrix(action)`: total probability mass
moved from state `i` to index `j` (`T[i, j] += prob` over the outcomes). -/
def Tmat (env : Environment S) (sl : List S) (a : Nat) (i j : Nat) : ℚ :=
  ((get_transition_outcomes env (stateAt sl i) a).map
    (fun o => if resolveIdx sl o.2.1 i = j then o.1 else 0)).sum

/-- Entry `R[i]` of `_get_transition_matrix(action)`: expected immediate reward
(`R[i] += prob * reward` over the outcomes). -/
def Rvec (env : Environment S) (sl : List S) (a : Nat) (i : Nat) : ℚ :=
  ((get_transition_outcomes env (stateAt sl i) a).map
    (fun o => o.1 * o.2.2)).sum

/-- `T[i] @ value_array`. -/
def dotValue (n : Nat) (row : Nat → ℚ) (v : List ℚ) : ℚ :=
  ∑ j in Finset.range n, row j * v.getD j 0

/-- One action's vectorized assignment inside `pi_policy_evaluation`:
`value_array[idx] = R[idx] + gamma * (T[idx] @ value_array)` for the rows
`idx` whose current policy index equals `BEE_ACTIONS.index(action)`; other rows
keep their value.  (When no row is assigned the action, this is the identity,
matching the `continue`.) -/
def evalActionUpdate (env : Environment S) (sl : List S) (a : Nat)
    (pol : List Nat) (v : List ℚ) : List ℚ :=
  (List.range sl.length).map (fun i =>
    if pol.getD i 0 = BEE_ACTIONS.indexOf a then
      Rvec env sl a i + env.gamma * dotValue sl.length (Tmat env sl a i) v
    else v.getD i 0)

/-- One sweep of `pi_policy_evaluation`'s inner `for action in BEE_ACTIONS`. -/
def evalSweep (env : Environment S) (sl : List S) (pol : List Nat)
    (v : List ℚ) : List ℚ :=
  BEE_ACTIONS.foldl (fun v a => evalActionUpdate env sl a pol v) v

/-- `np.max(np.abs(old_value - self.value_array))`. -/
def maxAbsDiff (n : Nat) (v w : List ℚ) : ℚ :=
  ((List.range n).map (fun i => |v.getD i 0 - w.getD i 0|)).foldr max 0

/-- `pi_policy_evaluation`: up to `max_iterations = 100` sweeps (the fuel
argument), stopping early once the largest value change of a sweep falls below
`epsilon`. -/
def pi_policy_evaluation (env : Environment S) (sl : List S) (pol : List Nat) :
    Nat → List ℚ → List ℚ
  | 0, v => v
  | fuel + 1, v =>
    let w := evalSweep env sl pol v
    if maxAbsDiff sl.length v w < env.epsilon then w
    else pi_policy_evaluation env sl pol fuel w

/-- `Q = R + gamma * (T @ value_array)` of `pi_policy_improvement`, entry `i`. -/
def Qvec (env : Environment S) (sl : List S) (a : Nat) (v : List ℚ)
    (i : Nat) : ℚ :=
  Rvec env sl a i + env.gamma * dotValue sl.length (Tmat env sl a i) v

/-- `self.policy_array = np.where(Q > self.value_array, BEE_ACTIONS.index(action),
self.policy_array)`: reassign exactly the rows where `Q` strictly exceeds the
stored value. -/
def improveAction (env : Environment S) (sl : List S) (a : Nat) (v : List ℚ)
    (pol : List Nat) : List Nat :=
  (List.range sl.length).map (fun i =>
    if Qvec env sl a v i > v.getD i 0 then BEE_ACTIONS.indexOf a
    else pol.getD i 0)

/-- `pi_policy_improvement`: fold the `np.where` update over the action list
(later actions overwrite earlier reassignments) and report whether the policy
vector is unchanged (`np.all(old_policy == self.policy_array)`). -/
def pi_policy_improvement (env : Environment S) (sl : List S) (v : List ℚ)
    (pol : List Nat) : List Nat × Bool :=
  let newPol := BEE_ACTIONS.foldl (fun pol a => improveAction env sl a v pol) pol
  (newPol, decide (pol = newPol))

/-- The three numpy attributes of the solver that `pi_iteration` reads and
writes: `value_array`, `policy_array`, `policy_stable`. -/
structure PICore where
  valueArr : List ℚ
  policyArr : List Nat
  policyStable : Bool
deriving DecidableEq

/-- The array part of `pi_iteration`: policy evaluation twice, then policy
improvement. -/
def pi_iteration_core (env : Environment S) (sl : List S) (c : PICore) : PICore :=
  let v1 := pi_policy_evaluation env sl c.policyArr 100 c.valueArr
  let v2 := pi_policy_evaluation env sl c.policyArr 100 v1
  let pr := pi_policy_improvement env sl v2 c.policyArr
  ⟨v2, pr.1, pr.2⟩

/-- The full state of the policy-iteration engine: the fixed state list, the
numpy arrays (`core`), and the canonical dictionaries. -/
structure PISt (S : Type) where
  stateList : List S
  core : PICore
  svDict : S → ℚ
  polDict : S → Nat

/-- `pi_iteration`: run the array update, then synchronize the dictionaries
(`self.state_values[state] = value_array[i]`,
`self.policy[state] = BEE_ACTIONS[policy_array[i]]` for every listed state). -/
def pi_iteration (env : Environment S) (st : PISt S) : PISt S :=
  let c := pi_iteration_core env st.stateList st.core
  { stateList := st.stateList
    core := c
    svDict := fun s =>
      if s ∈ st.stateList then c.valueArr.getD (st.stateList.indexOf s) 0
      else st.svDict s
    polDict := fun s =>
      if s ∈ st.stateList then
        BEE_ACTIONS.getD (c.policyArr.getD (st.stateList.indexOf s) 0) 0
      else st.polDict s }

/-- `pi_is_converged`. -/
def pi_is_converged (st : PISt S) : Bool := st.core.policyStable

/-- The value of the Python expression `self.pi_iteration()`: the method body
contains no `return` statement, so every call evaluates to `None`. -/
def pi_iteration_returns : Option Bool := none

/-- Python truthiness of an optional boolean (`None` is falsy). -/
def truthy : Option Bool → Bool
  | none => false
  | some b => b

/-- `pi_plan_offline`'s `while iterations < 100` loop, returning the final
state together with the number of `pi_iteration` calls made.  The loop body is
`if self.pi_iteration(): break`, so the break tests the truthiness of the
method call's value. -/
def pi_plan_loop (env : Environment S) : Nat → PISt S → PISt S × Nat
  | 0, st => (st, 0)
  | fuel + 1, st =>
    let st' := pi_iteration env st
    if truthy pi_iteration_returns then (st', 1)
    else
      let r := pi_plan_loop env fuel st'
      (r.1, r.2 + 1)

/-- `pi_initialise`: value-iteration initialisation, then the dense arrays in
state-list order (`policy_array` holds `BEE_ACTIONS.index(policy[s])`;
`policy_stable` starts `False` from `__init__`). -/
def pi_initialise (env : Environment S) (fuel : Nat) : PISt S :=
  let vist := vi_initial_state env fuel
  { stateList := vist.keys
    core :=
      ⟨vist.keys.map vist.values,
       vist.keys.map (fun s => BEE_ACTIONS.indexOf (vist.policy s)),
       false⟩
    svDict := vist.values
    polDict := vist.policy }

/-- `pi_plan_offline`: initialise, then at most 100 loop rounds. -/
def pi_plan_offline (env : Environment S) (fuel : Nat) : PISt S × Nat :=
  pi_plan_loop env 100 (pi_initialise env fuel)

/-! ### Sample environments used to instantiate theorems on concrete inputs -/

/-- A small concrete environment on `ℕ` states with nonzero drift and
double-move probabilities.  State `2` is solved; the dynamics walk up the
number line from state `0`. -/
def envA : Environment ℕ where
  get_init_state := 0
  is_solved s := s == 2
  apply_dynamics s a := (if a = FORWARD then (-1 : ℚ) else (-1) / 10, s + a + 1)
  drift_cw_probs _ := 1 / 10
  drift_ccw_probs _ := 1 / 5
  double_move_probs _ := 1 / 4
  epsilon := 1 / 100
  gamma := 9 / 10

/-- A concrete environment realizing the spec's drift scenario: clockwise
drift probability `0.1`, counter-clockwise `0`, double-move `1/4`. -/
def envC : Environment ℕ where
  get_init_state := 0
  is_solved s := s == 5
  apply_dynamics s a := (-1, s + a + 1)
  drift_cw_probs _ := 1 / 10
  drift_ccw_probs _ := 0
  double_move_probs _ := 1 / 4
  epsilon := 1 / 100
  gamma := 1 / 2

/-- A deterministic environment on `ℕ` in which state `0` has four distinct
successors (`apply_dynamics 0 a = (0, a + 1)`) and every other state loops on
itself; no state is solved.  Its reachable set from `0` is `{0, 1, 2, 3, 4}`. -/
def envB : Environment ℕ where
  get_init_state := 0
  is_solved _ := false
  apply_dynamics s a := if s = 0 then (0, a + 1) else (0, s)
  drift_cw_probs _ := 0
  drift_ccw_probs _ := 0
  double_move_probs _ := 0
  epsilon := 1 / 100
  gamma := 1 / 2

/-- A two-state deterministic environment: from state `0`, `FORWARD` earns `1`,
`REVERSE` and `SPIN_LEFT` both earn `2`, `SPIN_RIGHT` earns `0`, and every
action moves to the solved state `1`.  With `gamma = 0`, `REVERSE` and
`SPIN_LEFT` are exactly tied optimal at state `0`. -/
def envD : Environment ℕ where
  get_init_state := 0
  is_solved s := s == 1
  apply_dynamics s a :=
    if s = 0 then
      if a = FORWARD then (1, 1)
      else if a = REVERSE then (2, 1)
      else if a = SPIN_LEFT then (2, 1)
      else (0, 1)
    else (0, s)
  drift_cw_probs _ := 0
  drift_ccw_probs _ := 0
  double_move_probs _ := 0
  epsilon := 1 / 100
  gamma := 0

/-- The array state the policy-iteration engine reaches on `envD` after two
rounds (and keeps from then on): values `[2, 0]`, policy indices
`[SPIN_LEFT, FORWARD]`, stability flag raised. -/
def piCoreD : PICore := ⟨[2, 0], [2, 0], true⟩

/-- A two-state deterministic cycle (`0 → 1 → 0`, each step rewarding `1`,
nothing solved, `gamma = 1/2`): the value stored for state `1` in a sweep
depends on whether state `0`'s value was already updated in the same sweep. -/
def envE : Environment ℕ where
  get_init_state := 0
  is_solved _ := false
  apply_dynamics s _ := if s = 0 then (1, 1) else (1, 0)
  drift_cw_probs _ := 0
  drift_ccw_probs _ := 0
  double_move_probs _ := 0
  epsilon := 1 / 100
  gamma := 1 / 2

/-- A two-element value/policy table over states `0` and `1`, all values `0`,
all policies `FORWARD`. -/
def vist01 : VISt ℕ := ⟨[0, 1], fun _ => 0, fun _ => FORWARD⟩

end BeeBot

namespace BeeBot

variable {S : Type} [DecidableEq S]

/-! ### Claims about the transition model -/

/-- **C1.** For a non-terminal state and any action, when the per-action drift
probabilities satisfy `drift_cw + drift_ccw ≤ 1` and every parameter lies in
`[0, 1]`, the probabilities of the outcomes returned by
`get_transition_outcomes` sum to `1.0` within `1e-9` (in the exact rational
model the sum is exactly `1`). -/
theorem C1_outcome_probs_sum_to_one (env : Environment S) (s : S) (a : Nat)
    (hns : env.is_solved s = false)
    (_hsum : env.drift_cw_probs a + env.drift_ccw_probs a ≤ 1)
    (_hcw0 : 0 ≤ env.drift_cw_probs a) (_hcw1 : env.drift_cw_probs a ≤ 1)
    (_hccw0 : 0 ≤ env.drift_ccw_probs a) (_hccw1 : env.drift_ccw_probs a ≤ 1)
    (_hd0 : 0 ≤ env.double_move_probs a) (_hd1 : env.double_move_probs a ≤ 1) :
    |outcomeProbSum env s a - 1| ≤ 1 / 1000000000 := by
  have h : outcomeProbSum env s a = 1 := by
    simp [outcomeProbSum, get_transition_outcomes, hns]
    ring
  rw [h]
  norm_num

attribute [local semireducible] Rat.add Rat.sub Rat.mul Rat.inv Rat.ofScientific in
/-- Witness for C1 at the concrete environment `envA`, state `0`, action `FORWARD`. -/
theorem C1_outcome_probs_sum_to_one_witness :
    |outcomeProbSum envA 0 FORWARD - 1| ≤ 1 / 1000000000 :=
  C1_outcome_probs_sum_to_one envA 0 FORWARD (by decide) (by decide) (by decide)
    (by decide) (by decide) (by decide) (by decide) (by decide)

/-- `applyMovements` (code) and `specApplySeq` (spec wording) agree. -/
theorem applyMovements_eq_specApplySeq (env : Environment S) (start : S)
    (l : List Nat) (cur : S) (acc : ℚ) :
    applyMovements env start l cur acc = specApplySeq env start l cur acc := by
  induction l generalizing cur acc with
  | nil => rfl
  | cons m rest ih =>
    simp only [applyMovements, specApplySeq]
    split
    · rfl
    · exact ih _ _

/-- **C2.** For a non-terminal state, the outcomes of `get_transition_outcomes`
are exactly those obtained by sequentially applying the adapter's deterministic
step along the spec's movement sequences (no-drift/single = `[action]`,
drift/single = `[drift, action]`, no-drift/double = `[action, action]`,
drift/double = `[drift, action, action]`), summing per-step rewards and
stopping early as soon as a step's result equals the starting state. -/
theorem C2_outcomes_follow_movement_sequences (env : Environment S) (s : S) (a : Nat)
    (hns : env.is_solved s = false) :
    get_transition_outcomes env s a = specOutcomes env s a := by
  simp [get_transition_outcomes, specOutcomes, hns, specMovements,
    applyMovements_eq_specApplySeq, SPIN_RIGHT, SPIN_LEFT]

attribute [local semireducible] Rat.add Rat.sub Rat.mul Rat.inv Rat.ofScientific in
/-- Witness for C2 at the concrete environment `envA`, state `0`, action `FORWARD`. -/
theorem C2_outcomes_follow_movement_sequences_witness :
    get_transition_outcomes envA 0 FORWARD = specOutcomes envA 0 FORWARD :=
  C2_outcomes_follow_movement_sequences envA 0 FORWARD (by decide)

/-- **C3.** For every solved (terminal) state and every action,
`get_transition_outcomes` returns exactly the single self-loop outcome
`(1.0, state, 0.0)`. -/
theorem C3_terminal_self_loop (env : Environment S) (s : S) (a : Nat)
    (hsol : env.is_solved s = true) :
    get_transition_outcomes env s a = [(1, s, 0)] := by
  simp [get_transition_outcomes, hsol]

/-- Witness for C3 at the concrete environment `envA`, solved state `2`. -/
theorem C3_terminal_self_loop_witness :
    get_transition_outcomes envA 2 FORWARD = [(1, 2, 0)] :=
  C3_terminal_self_loop envA 2 FORWARD (by decide)

/-! ### The action-selection loop of `vi_iteration` -/

theorem bestStep_none (q : ℚ) (a : Nat) : bestStep q a none = some (q, a) := rfl

theorem bestStep_some (q : ℚ) (a : Nat) (bv : ℚ × Nat) :
    bestStep q a (some bv) = if q > bv.1 then some (q, a) else some bv := rfl

/-- `bestActionValue` returns the maximum Q-value over the fixed action list
together with the first action (in list order) attaining it: the comparison is
strict, so earlier actions win ties. -/
theorem bestActionValue_spec (env : Environment S) (keys : List S) (V : S → ℚ)
    (s : S) :
    (bestActionValue env keys V s).2 ∈ BEE_ACTIONS ∧
      (bestActionValue env keys V s).1 =
        computeQValue env keys V s (bestActionValue env keys V s).2 ∧
      (∀ a ∈ BEE_ACTIONS,
        computeQValue env keys V s a ≤ (bestActionValue env keys V s).1) ∧
      (∀ a ∈ BEE_ACTIONS, a < (bestActionValue env keys V s).2 →
        computeQValue env keys V s a < (bestActionValue env keys V s).1) := by
  simp only [bestActionValue, BEE_ACTIONS, FORWARD, REVERSE, SPIN_LEFT, SPIN_RIGHT,
    List.foldl_cons, List.foldl_nil, bestStep_none, bestStep_some,
    apply_ite (bestStep (computeQValue env keys V s 2) 2),
    apply_ite (bestStep (computeQValue env keys V s 3) 3),
    apply_ite (Option.getD (α := ℚ × Nat)), Option.getD_some]
  split_ifs <;>
    refine ⟨by norm_num, rfl, ?_, ?_⟩ <;>
      intro a ha <;>
      fin_cases ha <;>
      simp_all <;> linarith

/-- Folding `viStep` over a list of states only changes the tables at states of
that list. -/
theorem viStep_foldl_apply_of_not_mem (env : Environment S) (keys : List S)
    (l : List S) (vp : (S → ℚ) × (S → Nat)) (s : S) (h : s ∉ l) :
    (l.foldl (viStep env keys) vp).1 s = vp.1 s ∧
      (l.foldl (viStep env keys) vp).2 s = vp.2 s := by
  induction l generalizing vp with
  | nil => exact ⟨rfl, rfl⟩
  | cons t ts ih =>
    have hst : s ≠ t := fun hst => h (hst ▸ List.mem_cons_self t ts)
    have hsts : s ∉ ts := fun hm => h (List.mem_cons_of_mem t hm)
    rw [List.foldl_cons]
    rcases ih (viStep env keys vp t) hsts with ⟨h1, h2⟩
    refine ⟨h1.trans ?_, h2.trans ?_⟩ <;>
      simp only [viStep] <;> split <;>
      simp [Function.update_noteq hst]

/-- **C4.** For a non-terminal state `s` of the explored key list, one call to
`vi_iteration` stores at `s` the maximum over `BEE_ACTIONS` of the Q-value
computed from the value table current when `s` is processed (`Vmid`: the input
table already updated at the states preceding `s` in iteration order), and
stores as the new policy the first action in action-list order attaining that
maximum (strict comparison, first wins ties). -/
theorem C4_vi_iteration_greedy_update (env : Environment S) (V : S → ℚ)
    (π : S → Nat) (keys l1 l2 : List S) (s : S)
    (hk : keys = l1 ++ s :: l2) (hnd : keys.Nodup)
    (hns : env.is_solved s = false) :
    (vi_iteration env ⟨keys, V, π⟩).policy s ∈ BEE_ACTIONS ∧
      (vi_iteration env ⟨keys, V, π⟩).values s =
        computeQValue env keys (l1.foldl (viStep env keys) (V, π)).1 s
          ((vi_iteration env ⟨keys, V, π⟩).policy s) ∧
      (∀ a ∈ BEE_ACTIONS,
        computeQValue env keys (l1.foldl (viStep env keys) (V, π)).1 s a ≤
          (vi_iteration env ⟨keys, V, π⟩).values s) ∧
      (∀ a ∈ BEE_ACTIONS, a < (vi_iteration env ⟨keys, V, π⟩).policy s →
        computeQValue env keys (l1.foldl (viStep env keys) (V, π)).1 s a <
          (vi_iteration env ⟨keys, V, π⟩).values s) := by
  subst hk
  have hs2 : s ∉ l2 := (List.nodup_cons.1 hnd.of_append_right).1
  have hv : (vi_iteration env ⟨l1 ++ s :: l2, V, π⟩).values s =
      (bestActionValue env (l1 ++ s :: l2)
        (l1.foldl (viStep env (l1 ++ s :: l2)) (V, π)).1 s).1 := by
    show ((l1 ++ s :: l2).foldl (viStep env (l1 ++ s :: l2)) (V, π)).1 s = _
    rw [List.foldl_append, List.foldl_cons,
      (viStep_foldl_apply_of_not_mem env _ l2 _ s hs2).1]
    simp [viStep, hns]
  have hp : (vi_iteration env ⟨l1 ++ s :: l2, V, π⟩).policy s =
      (bestActionValue env (l1 ++ s :: l2)
        (l1.foldl (viStep env (l1 ++ s :: l2)) (V, π)).1 s).2 := by
    show ((l1 ++ s :: l2).foldl (viStep env (l1 ++ s :: l2)) (V, π)).2 s = _
    rw [List.foldl_append, List.foldl_cons,
      (viStep_foldl_apply_of_not_mem env _ l2 _ s hs2).2]
    simp [viStep, hns]
  rw [hv, hp]
  exact bestActionValue_spec env (l1 ++ s :: l2)
    (l1.foldl (viStep env (l1 ++ s :: l2)) (V, π)).1 s

attribute [local semireducible] Rat.add Rat.sub Rat.mul Rat.inv Rat.ofScientific in
/-- Witness for C4: the two-state table `vist01` over `envE`, with `s = 0`
processed first (`l1 = []`, `l2 = [1]`). -/
theorem C4_vi_iteration_greedy_update_witness :
    (vi_iteration envE vist01).policy 0 ∈ BEE_ACTIONS ∧
      (vi_iteration envE vist01).values 0 =
        computeQValue envE [0, 1] (([] : List ℕ).foldl (viStep envE [0, 1])
          (vist01.values, vist01.policy)).1 0 ((vi_iteration envE vist01).policy 0) ∧
      (∀ a ∈ BEE_ACTIONS,
        computeQValue envE [0, 1] (([] : List ℕ).foldl (viStep envE [0, 1])
          (vist01.values, vist01.policy)).1 0 a ≤ (vi_iteration envE vist01).values 0) ∧
      (∀ a ∈ BEE_ACTIONS, a < (vi_iteration envE vist01).policy 0 →
        computeQValue envE [0, 1] (([] : List ℕ).foldl (viStep envE [0, 1])
          (vist01.values, vist01.policy)).1 0 a < (vi_iteration envE vist01).values 0) :=
  C4_vi_iteration_greedy_update envE vist01.values vist01.policy [0, 1] [] [1] 0
    rfl (by decide) (by decide)

attribute [local semireducible] Rat.add Rat.sub Rat.mul Rat.inv Rat.ofScientific in
/-- **C10.** `vi_iteration` updates the shared value table in place
(Gauss–Seidel): the value stored at a state `s` is computed from the table
already updated at the states preceding `s` in iteration order — and this
differs observably from the snapshot (Jacobi) variant: on the two-state cycle
`envE` the two sweeps store different values for the later state `1`. -/
theorem C10_vi_iteration_in_place :
    (∀ (T : Type) [DecidableEq T] (env : Environment T) (V : T → ℚ)
      (π : T → Nat) (keys l1 l2 : List T) (s : T),
      keys = l1 ++ s :: l2 → keys.Nodup → env.is_solved s = false →
      (vi_iteration env ⟨keys, V, π⟩).values s =
        (bestActionValue env keys (l1.foldl (viStep env keys) (V, π)).1 s).1) ∧
    (vi_iteration envE vist01).values 1 ≠ (viIterationSnapshot envE vist01).values 1 := by
  constructor
  · intro T _ env V π keys l1 l2 s hk hnd hns
    subst hk
    have hs2 : s ∉ l2 := (List.nodup_cons.1 hnd.of_append_right).1
    show ((l1 ++ s :: l2).foldl (viStep env (l1 ++ s :: l2)) (V, π)).1 s = _
    rw [List.foldl_append, List.foldl_cons,
      (viStep_foldl_apply_of_not_mem env _ l2 _ s hs2).1]
    simp [viStep, hns]
  · decide

attribute [local semireducible] Rat.add Rat.sub Rat.mul Rat.inv Rat.ofScientific in
/-- Witness for C10: the in-place characterization instantiated at `envE`,
table `vist01`, with `s = 1` processed after `l1 = [0]`. -/
theorem C10_vi_iteration_in_place_witness :
    (vi_iteration envE vist01).values 1 =
      (bestActionValue envE [0, 1]
        (([0] : List ℕ).foldl (viStep envE [0, 1])
          (vist01.values, vist01.policy)).1 1).1 :=
  C10_vi_iteration_in_place.1 ℕ envE vist01.values vist01.policy [0, 1] [0] [] 1
    rfl (by decide) (by decide)

/-! ### The state-space explorer and its cap -/

attribute [local semireducible] Rat.add Rat.sub Rat.mul Rat.inv Rat.ofScientific in
/-- **C6, counterexample.** On `envB` the true reachable set from `0` has 5
states (the cap-10000 run empties its frontier with 5 states known), yet with
cap `2` the explorer does **not** stop with exactly `2` states known: the final
expansion overshoots the cap and it stops with 5. -/
theorem C6_counterexample_cap_overshoot :
    (exploreLoop envB 10000 20 [0] [(0, 0)] [(0, FORWARD)] []).exit =
        ExploreExit.frontierEmpty ∧
      (exploreLoop envB 10000 20 [0] [(0, 0)] [(0, FORWARD)] []).sv.length = 5 ∧
      2 < 5 ∧
      (exploreLoop envB 2 20 [0] [(0, 0)] [(0, FORWARD)] []).sv.length ≠ 2 := by
  refine ⟨by decide, by decide, by decide, by decide⟩

/-- **C6, amended.** When the explorer's loop exits because of the cap, the
number of known states is at least `cap` (the last expansion may overshoot it),
and the warning condition of the closing `print` holds — the source reports the
overflow only through that console line, not through a value returned to the
caller. -/
theorem C6_explorer_cap_reached_at_least_cap (env : Environment S)
    (cap fuel : Nat) (stack : List S) (sv : List (S × ℚ)) (pol : List (S × Nat))
    (ex : List S)
    (hc : (exploreLoop env cap fuel stack sv pol ex).exit = ExploreExit.capReached) :
    cap ≤ (exploreLoop env cap fuel stack sv pol ex).sv.length ∧
      exploreWarns cap (exploreLoop env cap fuel stack sv pol ex) = true := by
  have hgen : ∀ (fuel : Nat) (stack : List S) (sv : List (S × ℚ))
      (pol : List (S × Nat)) (ex : List S),
      (exploreLoop env cap fuel stack sv pol ex).exit = ExploreExit.capReached →
      cap ≤ (exploreLoop env cap fuel stack sv pol ex).sv.length := by
    intro fuel
    induction fuel with
    | zero => intro stack sv pol ex hc; simp [exploreLoop] at hc
    | succ n ih =>
      intro stack sv pol ex hc
      cases stack with
      | nil => simp [exploreLoop] at hc
      | cons s rest =>
        rw [exploreLoop] at hc ⊢
        by_cases h : sv.length < cap
        · rw [if_pos h] at hc ⊢
          by_cases he : s ∈ ex
          · rw [if_pos he] at hc ⊢
            exact ih _ _ _ _ hc
          · rw [if_neg he] at hc ⊢
            exact ih _ _ _ _ hc
        · rw [if_neg h] at hc ⊢
          exact Nat.le_of_not_lt h
  have hlen := hgen fuel stack sv pol ex hc
  refine ⟨hlen, ?_⟩
  simp only [exploreWarns, ge_iff_le, decide_eq_true_eq]
  exact hlen

attribute [local semireducible] Rat.add Rat.sub Rat.mul Rat.inv Rat.ofScientific in
/-- Witness for C6 (amended): the cap-2 run on `envB` exits with
`capReached`, at least 2 states known, and the warning condition raised. -/
theorem C6_explorer_cap_reached_witness :
    (exploreLoop envB 2 20 [0] [(0, 0)] [(0, FORWARD)] []).exit =
        ExploreExit.capReached ∧
      2 ≤ (exploreLoop envB 2 20 [0] [(0, 0)] [(0, FORWARD)] []).sv.length ∧
      exploreWarns 2 (exploreLoop envB 2 20 [0] [(0, 0)] [(0, FORWARD)] []) = true :=
  have h : (exploreLoop envB 2 20 [0] [(0, 0)] [(0, FORWARD)] []).exit =
      ExploreExit.capReached := by decide
  ⟨h, (C6_explorer_cap_reached_at_least_cap envB 2 20 [0] [(0, 0)] [(0, FORWARD)] [] h).1,
    (C6_explorer_cap_reached_at_least_cap envB 2 20 [0] [(0, 0)] [(0, FORWARD)] [] h).2⟩

/-! ### The drift scenario of the spec (C7) -/

attribute [local semireducible] Rat.add Rat.sub Rat.mul Rat.inv Rat.ofScientific in
/-- **C7, counterexample.** On `envC` (`drift_cw = 0.1`, `drift_ccw = 0`,
non-terminal state `0`), `get_transition_outcomes` does **not** return 4
outcomes: the source always enumerates all three drift rows, including the
zero-probability counter-clockwise row, so 6 outcomes are returned. -/
theorem C7_counterexample_six_outcomes :
    envC.drift_cw_probs FORWARD = 1 / 10 ∧
      envC.drift_ccw_probs FORWARD = 0 ∧
      envC.is_solved 0 = false ∧
      (get_transition_outcomes envC 0 FORWARD).length = 6 ∧
      (get_transition_outcomes envC 0 FORWARD).length ≠ 4 := by
  refine ⟨rfl, rfl, rfl, by decide, by decide⟩

/-- **C7, amended.** For a non-terminal state and an action with
`drift_ccw = 0` and `drift_cw = 0.1`, `get_transition_outcomes` returns exactly
6 outcomes; the four non-ccw ones carry the products of the branch
probabilities (`0.9·(1-p_double)`, `0.9·p_double`, `0.1·(1-p_double)`,
`0.1·p_double`), the two ccw-drift ones carry probability `0`, and all six sum
to `1.0`. -/
theorem C7_amended_outcome_probs (env : Environment S) (s : S) (a : Nat)
    (hns : env.is_solved s = false)
    (hcw : env.drift_cw_probs a = 1 / 10)
    (hccw : env.drift_ccw_probs a = 0) :
    (get_transition_outcomes env s a).length = 6 ∧
      (get_transition_outcomes env s a).map (fun o => o.1) =
        [9 / 10 * (1 - env.double_move_probs a),
         9 / 10 * env.double_move_probs a,
         1 / 10 * (1 - env.double_move_probs a),
         1 / 10 * env.double_move_probs a, 0, 0] ∧
      outcomeProbSum env s a = 1 := by
  refine ⟨?_, ?_, ?_⟩
  · simp [get_transition_outcomes, hns]
  · simp only [get_transition_outcomes, hns, hcw, hccw, Bool.false_eq_true,
      if_false, List.flatMap_cons, List.flatMap_nil, List.map_cons, List.map_nil,
      List.append_nil, List.map_append]
    norm_num
  · simp [outcomeProbSum, get_transition_outcomes, hns, hcw, hccw]
    ring

attribute [local semireducible] Rat.add Rat.sub Rat.mul Rat.inv Rat.ofScientific in
/-- Witness for C7 (amended) at `envC`, state `0`, action `FORWARD`. -/
theorem C7_amended_outcome_probs_witness :
    (get_transition_outcomes envC 0 FORWARD).length = 6 ∧
      (get_transition_outcomes envC 0 FORWARD).map (fun o => o.1) =
        [9 / 10 * (1 - envC.double_move_probs FORWARD),
         9 / 10 * envC.double_move_probs FORWARD,
         1 / 10 * (1 - envC.double_move_probs FORWARD),
         1 / 10 * envC.double_move_probs FORWARD, 0, 0] ∧
      outcomeProbSum envC 0 FORWARD = 1 :=
  C7_amended_outcome_probs envC 0 FORWARD rfl rfl rfl

/-! ### The `pi_plan_offline` loop -/

section PILoop

variable [Inhabited S]

/-- `pi_plan_loop` always makes exactly `fuel` calls to `pi_iteration`: since
`pi_iteration` has no `return` statement, its value is `None`, which is falsy,
so the `if self.pi_iteration(): break` never fires. -/
theorem pi_plan_loop_count (env : Environment S) (fuel : Nat) (st : PISt S) :
    (pi_plan_loop env fuel st).2 = fuel := by
  induction fuel generalizing st with
  | zero => rfl
  | succ n ih => simp [pi_plan_loop, truthy, pi_iteration_returns, ih]

/-- The state after `pi_plan_loop` is the `fuel`-th iterate of `pi_iteration`. -/
theorem pi_plan_loop_fst (env : Environment S) (fuel : Nat) (st : PISt S) :
    (pi_plan_loop env fuel st).1 = (pi_iteration env)^[fuel] st := by
  induction fuel generalizing st with
  | zero => rfl
  | succ n ih =>
    simp [pi_plan_loop, truthy, pi_iteration_returns, ih,
      Function.iterate_succ_apply]

theorem pi_iterate_stateList (env : Environment S) (k : Nat) (st : PISt S) :
    ((pi_iteration env)^[k] st).stateList = st.stateList := by
  induction k generalizing st with
  | zero => rfl
  | succ n ih =>
    rw [Function.iterate_succ_apply]
    exact ih (pi_iteration env st)

/-- The numpy-array part of the iterates is the iterate of the array update. -/
theorem pi_iterate_core (env : Environment S) (k : Nat) (st : PISt S) :
    ((pi_iteration env)^[k] st).core =
      (pi_iteration_core env st.stateList)^[k] st.core := by
  induction k generalizing st with
  | zero => rfl
  | succ n ih =>
    rw [Function.iterate_succ_apply, Function.iterate_succ_apply]
    exact ih (pi_iteration env st)

/-- The dictionary sync of `pi_iteration` at a listed state, policy side. -/
theorem pi_iteration_polDict_mem (env : Environment S) (st : PISt S) (s : S)
    (hs : s ∈ st.stateList) :
    (pi_iteration env st).polDict s =
      BEE_ACTIONS.getD
        ((pi_iteration_core env st.stateList st.core).policyArr.getD
          (st.stateList.indexOf s) 0) 0 := by
  simp [pi_iteration, hs]

/-- The dictionary sync of `pi_iteration` at a listed state, value side. -/
theorem pi_iteration_svDict_mem (env : Environment S) (st : PISt S) (s : S)
    (hs : s ∈ st.stateList) :
    (pi_iteration env st).svDict s =
      (pi_iteration_core env st.stateList st.core).valueArr.getD
        (st.stateList.indexOf s) 0 := by
  simp [pi_iteration, hs]

end PILoop

attribute [local semireducible] Rat.add Rat.sub Rat.mul Rat.inv Rat.ofScientific in
set_option maxRecDepth 100000 in
/-- **C5.** The break of `pi_plan_offline` is dead code: `pi_iteration` sets
`self.policy_stable` but has no `return` statement, so `if self.pi_iteration():
break` tests `None` and never fires — the loop always runs all 100 rounds.  On
`envD` the stability flag is raised after two rounds, yet `pi_plan_offline`
still makes 100 `pi_iteration` calls, contradicting the claim that no further
rounds are executed once the policy is stable. -/
theorem C5_pi_plan_offline_break_never_fires :
    (∀ (T : Type) [DecidableEq T] [Inhabited T] (env : Environment T)
      (st : PISt T), (pi_plan_loop env 100 st).2 = 100) ∧
      pi_is_converged
        (pi_iteration envD (pi_iteration envD (pi_initialise envD 30))) = true ∧
      (pi_plan_offline envD 30).2 = 100 := by
  refine ⟨fun T _ _ env st => pi_plan_loop_count env 100 st, ?_,
    pi_plan_loop_count envD 100 (pi_initialise envD 30)⟩
  decide

/-! ### Comparing the two engines on `envD`

On `envD`, `REVERSE` and `SPIN_LEFT` are exactly tied optimal at the initial
state `0` (both have Q-value 2).  Value iteration's strict-`>`-first selection
keeps the earlier action `REVERSE`; policy iteration's `np.where` improvement
lets the later action `SPIN_LEFT` overwrite it.  The next lemmas evaluate both
pipelines to completion. -/

attribute [local semireducible] Rat.add Rat.sub Rat.mul Rat.inv Rat.ofScientific in
set_option maxRecDepth 100000 in
/-- The policy-iteration arrays on `envD` reach `piCoreD` after two rounds and
`piCoreD` is a fixed point of the array update. -/
theorem piD_core_facts :
    (pi_initialise envD 30).stateList = [0, 1] ∧
      (pi_iteration_core envD [0, 1])^[2] (pi_initialise envD 30).core = piCoreD ∧
      pi_iteration_core envD [0, 1] piCoreD = piCoreD := by
  refine ⟨by decide, by decide, by decide⟩

/-- The final dictionaries of `pi_plan_offline envD 30`: policy `SPIN_LEFT` and
value `2` at state `0`, value `0` at the solved state `1`. -/
theorem piD_final_dicts :
    (pi_plan_offline envD 30).1.polDict 0 = SPIN_LEFT ∧
      (pi_plan_offline envD 30).1.svDict 0 = 2 ∧
      (pi_plan_offline envD 30).1.svDict 1 = 0 := by
  obtain ⟨hsl, hc2, hfix⟩ := piD_core_facts
  have hfst : (pi_plan_offline envD 30).1 =
      (pi_iteration envD)^[100] (pi_initialise envD 30) :=
    pi_plan_loop_fst envD 100 (pi_initialise envD 30)
  have hiter : ∀ k : Nat,
      (pi_iteration_core envD [0, 1])^[k + 2] (pi_initialise envD 30).core =
        piCoreD := by
    intro k
    rw [Function.iterate_add_apply, hc2, Function.iterate_fixed hfix]
  have h99sl : ((pi_iteration envD)^[99] (pi_initialise envD 30)).stateList =
      [0, 1] := by
    rw [pi_iterate_stateList, hsl]
  have h99core : ((pi_iteration envD)^[99] (pi_initialise envD 30)).core =
      piCoreD := by
    rw [pi_iterate_core, hsl]
    exact hiter 97
  have hsplit : (pi_iteration envD)^[100] (pi_initialise envD 30) =
      pi_iteration envD ((pi_iteration envD)^[99] (pi_initialise envD 30)) :=
    Function.iterate_succ_apply' (pi_iteration envD) 99 (pi_initialise envD 30)
  rw [hfst, hsplit]
  have hmem0 : (0 : ℕ) ∈ ((pi_iteration envD)^[99]
      (pi_initialise envD 30)).stateList := by
    rw [h99sl]; exact List.mem_cons_self 0 [1]
  have hmem1 : (1 : ℕ) ∈ ((pi_iteration envD)^[99]
      (pi_initialise envD 30)).stateList := by
    rw [h99sl]; exact List.mem_cons_of_mem 0 (List.mem_cons_self 1 [])
  rw [pi_iteration_polDict_mem envD _ 0 hmem0, pi_iteration_svDict_mem envD _ 0 hmem0,
    pi_iteration_svDict_mem envD _ 1 hmem1, h99sl, h99core, hfix]
  refine ⟨by decide, by decide, by decide⟩

attribute [local semireducible] Rat.add Rat.sub Rat.mul Rat.inv Rat.ofScientific in
set_option maxRecDepth 100000 in
/-- **C9, counterexample.** Same environment configuration `envD`, both engines
run to completion, yet at the initial state `0` — reached with probability 1 —
value iteration's final policy is `REVERSE` while policy iteration's is
`SPIN_LEFT`. -/
theorem C9_counterexample_policies_differ :
    (vi_plan_offline envD 30).policy 0 = REVERSE ∧
      (pi_plan_offline envD 30).1.polDict 0 = SPIN_LEFT ∧
      REVERSE ≠ SPIN_LEFT := by
  refine ⟨by decide, piD_final_dicts.1, by decide⟩

attribute [local semireducible] Rat.add Rat.sub Rat.mul Rat.inv Rat.ofScientific in
set_option maxRecDepth 100000 in
/-- **C9, amended.** On the shared configuration `envD` the two engines agree
exactly on the state values of every explored state, but their final policies
agree only up to ties: at state `0` the two chosen actions differ while having
exactly equal Q-values under the common value table. -/
theorem C9_amended_values_agree_policies_tie :
    (vi_plan_offline envD 30).values 0 = (pi_plan_offline envD 30).1.svDict 0 ∧
      (vi_plan_offline envD 30).values 1 = (pi_plan_offline envD 30).1.svDict 1 ∧
      (vi_plan_offline envD 30).policy 0 = REVERSE ∧
      (pi_plan_offline envD 30).1.polDict 0 = SPIN_LEFT ∧
      computeQValue envD [0, 1] (vi_plan_offline envD 30).values 0 REVERSE =
        computeQValue envD [0, 1] (vi_plan_offline envD 30).values 0 SPIN_LEFT := by
  obtain ⟨hpol, hsv0, hsv1⟩ := piD_final_dicts
  rw [hpol, hsv0, hsv1]
  refine ⟨by decide, by decide, by decide, rfl, by decide⟩

/-! ### Terminal states keep value zero (C8) -/

/-- Every dictionary value inserted by `expandState` is `0`. -/
theorem expandState_values_zero (env : Environment S) (s : S)
    (acc : List (S × ℚ) × List (S × Nat) × List S)
    (h : ∀ p ∈ acc.1, p.2 = (0 : ℚ)) :
    ∀ p ∈ (expandState env s acc).1, p.2 = 0 := by
  have inner : ∀ (l : List (ℚ × S × ℚ))
      (acc : List (S × ℚ) × List (S × Nat) × List S),
      (∀ p ∈ acc.1, p.2 = (0 : ℚ)) →
      ∀ p ∈ (l.foldl
        (fun acc o =>
          if o.2.1 ∈ acc.1.map Prod.fst then acc
          else (acc.1 ++ [(o.2.1, 0)], acc.2.1 ++ [(o.2.1, FORWARD)],
            o.2.1 :: acc.2.2)) acc).1, p.2 = 0 := by
    intro l
    induction l with
    | nil => intro acc h; exact h
    | cons o rest ih =>
      intro acc h
      rw [List.foldl_cons]
      apply ih
      dsimp only
      split
      · exact h
      · intro p hp
        rcases List.mem_append.1 hp with hp | hp
        · exact h p hp
        · simp only [List.mem_singleton] at hp
          rw [hp]
  have outer : ∀ (acts : List Nat)
      (acc : List (S × ℚ) × List (S × Nat) × List S),
      (∀ p ∈ acc.1, p.2 = (0 : ℚ)) →
      ∀ p ∈ (acts.foldl
        (fun acc a =>
          (get_transition_outcomes env s a).foldl
            (fun acc o =>
              if o.2.1 ∈ acc.1.map Prod.fst then acc
              else (acc.1 ++ [(o.2.1, 0)], acc.2.1 ++ [(o.2.1, FORWARD)],
                o.2.1 :: acc.2.2)) acc) acc).1, p.2 = 0 := by
    intro acts
    induction acts with
    | nil => intro acc h; exact h
    | cons a rest ih =>
      intro acc h
      rw [List.foldl_cons]
      exact ih _ (inner _ acc h)
  exact outer BEE_ACTIONS acc h

/-- Every dictionary value the explorer ever stores is `0`. -/
theorem exploreLoop_values_zero (env : Environment S) (cap : Nat) :
    ∀ (fuel : Nat) (stack : List S) (sv : List (S × ℚ)) (pol : List (S × Nat))
      (ex : List S), (∀ p ∈ sv, p.2 = (0 : ℚ)) →
      ∀ p ∈ (exploreLoop env cap fuel stack sv pol ex).sv, p.2 = 0 := by
  intro fuel
  induction fuel with
  | zero => intro stack sv pol ex h; exact h
  | succ n ih =>
    intro stack sv pol ex h
    cases stack with
    | nil => exact h
    | cons s rest =>
      rw [exploreLoop]
      by_cases hlt : sv.length < cap
      · rw [if_pos hlt]
        by_cases he : s ∈ ex
        · rw [if_pos he]
          exact ih rest sv pol ex h
        · rw [if_neg he]
          exact ih _ _ _ _ (expandState_values_zero env s (sv, pol, rest) h)
      · rw [if_neg hlt]
        exact h

section PITerminal

variable [Inhabited S]

/-- For a terminal row `i`, the transition matrix is the self-loop row and the
reward entry is `0`: `R[i] = 0` and `T[i] @ v = v[i]`. -/
theorem terminal_row (env : Environment S) (sl : List S) (hnd : sl.Nodup)
    (a i : Nat) (hi : i < sl.length)
    (hsol : env.is_solved (stateAt sl i) = true) :
    Rvec env sl a i = 0 ∧
      ∀ v : List ℚ, dotValue sl.length (Tmat env sl a i) v = v.getD i 0 := by
  have hout : get_transition_outcomes env (stateAt sl i) a =
      [(1, stateAt sl i, 0)] := by
    simp [get_transition_outcomes, hsol]
  refine ⟨by simp [Rvec, hout], ?_⟩
  intro v
  have hmem : stateAt sl i ∈ sl := by
    rw [stateAt, List.getD_eq_getElem sl default hi]
    exact List.getElem_mem hi
  have hidx : sl.indexOf (stateAt sl i) = i := by
    rw [stateAt, List.getD_eq_getElem sl default hi]
    exact List.indexOf_getElem hnd i hi
  have hT : ∀ j, Tmat env sl a i j = if i = j then 1 else 0 := by
    intro j
    simp [Tmat, hout, resolveIdx, hmem, hidx]
  simp only [dotValue, hT, ite_mul, one_mul, zero_mul]
  rw [Finset.sum_ite_eq (Finset.range sl.length) i (fun j => v.getD j 0)]
  simp [hi]

/-- One vectorized evaluation assignment keeps terminal entries at `0`. -/
theorem evalActionUpdate_zero (env : Environment S) (sl : List S)
    (hnd : sl.Nodup) (a : Nat) (pol : List Nat) (v : List ℚ)
    (hz : ∀ i < sl.length,
      env.is_solved (stateAt sl i) = true → v.getD i 0 = 0) :
    ∀ i < sl.length, env.is_solved (stateAt sl i) = true →
      (evalActionUpdate env sl a pol v).getD i 0 = 0 := by
  intro i hi hsol
  have hlen : i < ((List.range sl.length).map (fun i =>
      if pol.getD i 0 = BEE_ACTIONS.indexOf a then
        Rvec env sl a i + env.gamma * dotValue sl.length (Tmat env sl a i) v
      else v.getD i 0)).length := by
    simpa using hi
  rw [evalActionUpdate, List.getD_eq_getElem _ _ hlen]
  simp only [List.getElem_map, List.getElem_range]
  obtain ⟨hR, hdot⟩ := terminal_row env sl hnd a i hi hsol
  split
  · rw [hR, hdot v, hz i hi hsol]
    ring
  · exact hz i hi hsol

/-- A whole evaluation sweep keeps terminal entries at `0`. -/
theorem evalSweep_zero (env : Environment S) (sl : List S) (hnd : sl.Nodup)
    (pol : List Nat) :
    ∀ (acts : List Nat) (v : List ℚ),
      (∀ i < sl.length,
        env.is_solved (stateAt sl i) = true → v.getD i 0 = 0) →
      ∀ i < sl.length, env.is_solved (stateAt sl i) = true →
        (acts.foldl (fun v a => evalActionUpdate env sl a pol v) v).getD i 0 = 0 := by
  intro acts
  induction acts with
  | nil => intro v hz; exact hz
  | cons a rest ih =>
    intro v hz
    rw [List.foldl_cons]
    exact ih _ (evalActionUpdate_zero env sl hnd a pol v hz)

/-- The bounded-sweep policy evaluation keeps terminal entries at `0`. -/
theorem pi_policy_evaluation_zero (env : Environment S) (sl : List S)
    (hnd : sl.Nodup) (pol : List Nat) :
    ∀ (fuel : Nat) (v : List ℚ),
      (∀ i < sl.length,
        env.is_solved (stateAt sl i) = true → v.getD i 0 = 0) →
      ∀ i < sl.length, env.is_solved (stateAt sl i) = true →
        (pi_policy_evaluation env sl pol fuel v).getD i 0 = 0 := by
  intro fuel
  induction fuel with
  | zero => intro v hz; exact hz
  | succ n ih =>
    intro v hz
    rw [pi_policy_evaluation]
    split
    · exact evalSweep_zero env sl hnd pol BEE_ACTIONS v hz
    · exact ih _ (evalSweep_zero env sl hnd pol BEE_ACTIONS v hz)

end PITerminal

/-- **C8.** Terminal (solved) states keep value exactly `0`: (i) every value the
explorer stores is `0`, so terminal entries are `0` after initialization;
(ii) `vi_iteration` pins every listed terminal state's value to `0`; (iii) one
full `pi_iteration` (double evaluation, improvement, dictionary sync) keeps
every terminal array entry at `0` and syncs `0` into the value dictionary at
every listed terminal state. -/
theorem C8_terminal_values_zero :
    (∀ (T : Type) [DecidableEq T] (env : Environment T) (cap fuel : Nat)
      (stack : List T) (sv : List (T × ℚ)) (pol : List (T × Nat)) (ex : List T),
      (∀ p ∈ sv, p.2 = (0 : ℚ)) →
      ∀ p ∈ (exploreLoop env cap fuel stack sv pol ex).sv,
        env.is_solved p.1 = true → p.2 = 0) ∧
    (∀ (T : Type) [DecidableEq T] (env : Environment T) (st : VISt T) (s : T),
      st.keys.Nodup → s ∈ st.keys → env.is_solved s = true →
      (vi_iteration env st).values s = 0) ∧
    (∀ (T : Type) [DecidableEq T] [Inhabited T] (env : Environment T)
      (st : PISt T), st.stateList.Nodup →
      (∀ i < st.stateList.length,
        env.is_solved (stateAt st.stateList i) = true →
        st.core.valueArr.getD i 0 = 0) →
      (∀ i < st.stateList.length,
        env.is_solved (stateAt st.stateList i) = true →
        (pi_iteration env st).core.valueArr.getD i 0 = 0) ∧
      (∀ s ∈ st.stateList, env.is_solved s = true →
        (pi_iteration env st).svDict s = 0)) := by
  refine ⟨?_, ?_, ?_⟩
  · intro T _ env cap fuel stack sv pol ex h p hp _
    exact exploreLoop_values_zero env cap fuel stack sv pol ex h p hp
  · intro T _ env st s hnd hs hsol
    obtain ⟨l1, l2, hk⟩ := List.append_of_mem hs
    have hs2 : s ∉ l2 := by
      rw [hk] at hnd
      exact (List.nodup_cons.1 hnd.of_append_right).1
    show (st.keys.foldl (viStep env st.keys) (st.values, st.policy)).1 s = 0
    rw [hk, List.foldl_append, List.foldl_cons,
      (viStep_foldl_apply_of_not_mem env _ l2 _ s hs2).1]
    simp [viStep, hsol]
  · intro T _ _ env st hnd hz
    have hv2 : ∀ i < st.stateList.length,
        env.is_solved (stateAt st.stateList i) = true →
        (pi_iteration_core env st.stateList st.core).valueArr.getD i 0 = 0 := by
      intro i hi hsol
      exact pi_policy_evaluation_zero env st.stateList hnd st.core.policyArr 100
        (pi_policy_evaluation env st.stateList st.core.policyArr 100
          st.core.valueArr)
        (pi_policy_evaluation_zero env st.stateList hnd st.core.policyArr 100
          st.core.valueArr hz) i hi hsol
    refine ⟨hv2, ?_⟩
    intro s hs hsol
    rw [pi_iteration_svDict_mem env st s hs]
    have hi : st.stateList.indexOf s < st.stateList.length :=
      List.indexOf_lt_length.2 hs
    have hst : stateAt st.stateList (st.stateList.indexOf s) = s := by
      rw [stateAt, List.getD_eq_getElem _ _ hi]
      exact List.getElem_indexOf hi
    exact hv2 _ hi (by rw [hst]; exact hsol)

attribute [local semireducible] Rat.add Rat.sub Rat.mul Rat.inv Rat.ofScientific in
set_option maxRecDepth 100000 in
/-- Witness for C8: each part instantiated on a concrete run — the solved
state's explorer entry on `envD`, the solved state `1` of `envD` after `vi_iteration`,
and the solved state `1` of `envD` after one `pi_iteration` from the freshly
initialised engine. -/
theorem C8_terminal_values_zero_witness :
    ((exploreLoop envD 10000 20 [0] [(0, 0)] [(0, FORWARD)] []).sv.getD 1
        (0, 1)).2 = 0 ∧
      (vi_iteration envD vist01).values 1 = 0 ∧
      (pi_iteration envD (pi_initialise envD 30)).svDict 1 = 0 :=
  ⟨C8_terminal_values_zero.1 ℕ envD 10000 20 [0] [(0, 0)] [(0, FORWARD)] []
      (by decide) _ (by decide) (by decide),
    C8_terminal_values_zero.2.1 ℕ envD vist01 1 (by decide) (by decide) (by decide),
    (C8_terminal_values_zero.2.2 ℕ envD (pi_initialise envD 30) (by decide)
      (by decide)).2 1 (by decide) (by decide)⟩

end BeeBot
